import Mathlib

/-!
Shallow embedding of src/College.cpp: the entity layer (Student, Teacher,
Course), the School registry and its operations, modelled as pure
state-passing functions.  C++ float scores are modelled exactly as
rationals; std::map and std::set become association lists and
duplicate-free lists (iteration order is irrelevant to every property
proved here); cerr diagnostics become optional message values; observer
notification is modelled by returning the list of emitted events.  The
signed/unsigned comparisons (int against size_t) in the source are
modelled by the usize conversion below.  std::sort with the strict
comparator a.second > b.second yields some non-increasing arrangement;
it is modelled by insertion sort on the total preorder wamGe.
-/

namespace College

/-- GradeLevel enum from College.cpp. -/
inductive GradeLevel
  | FRESHMAN
  | SOPHOMORE
  | JUNIOR
  | SENIOR
deriving DecidableEq

/-- Address value record. -/
structure Address where
  street : String
  city : String
  state : String
  zip_code : String
deriving DecidableEq

/-- One observer notification, as passed to Observable::notify. -/
structure ScoreEvent where
  student_id : String
  course_id : String
  old_wam : Option Rat
  new_wam : Rat
deriving DecidableEq

/-- Conversion of a C++ signed integer to 64-bit size_t, as performed by the
usual arithmetic conversions in the comparisons
enrolled_students.size() < capacity and n > performers.size(). -/
def usize (i : Int) : Nat := (i % (2 : Int) ^ 64).toNat

/-- std::set insertion: a no-op when the element is already present. -/
def insertSet (x : String) (l : List String) : List String :=
  if x ∈ l then l else l ++ [x]

/-- std::map operator assignment m[k] = v: replaces the value at k in place,
inserting the key when absent. -/
def updateAssoc (k : String) (v : Option Rat) :
    List (String × Option Rat) → List (String × Option Rat)
  | [] => [(k, v)]
  | kv :: rest => if kv.1 = k then (k, v) :: rest else kv :: updateAssoc k v rest

/-- In-place mutation of the first element satisfying p, as done through the
iterator returned by std::find_if. -/
def updateFirst (p : α → Bool) (f : α → α) : List α → List α
  | [] => []
  | x :: xs => if p x then f x :: xs else x :: updateFirst p f xs

/-- Student entity: identity fields, grade level, the enrollment map
courses (course_id to optional WAM score) and the observer bus. -/
structure Student where
  id : String
  name : String
  email : String
  address : Address
  grade_level : GradeLevel
  courses : List (String × Option Rat)
  observers : List Nat
deriving DecidableEq

/-- Student constructor: enrollment map and observer list start empty. -/
def Student.new (id name email : String) (address : Address)
    (grade_level : GradeLevel) : Student :=
  ⟨id, name, email, address, grade_level, [], []⟩

/-- Student::enroll: adds course_id mapped to no-score when absent and
notifies (id, course_id, nullopt, 0.0); a no-op when already present. -/
def Student.enroll (s : Student) (course_id : String) :
    Student × List ScoreEvent :=
  if (s.courses.lookup course_id).isSome then (s, [])
  else ({ s with courses := s.courses ++ [(course_id, none)] },
        [⟨s.id, course_id, none, 0⟩])

/-- Result of Student::updateWAM: the student afterwards, the emitted
events, and the cerr diagnostic when the score was rejected. -/
structure UpdateResult where
  student : Student
  events : List ScoreEvent
  err : Option String
deriving DecidableEq

/-- Student::updateWAM: rejects scores outside the closed interval 0..100
with a cerr diagnostic; otherwise, when the course is in the enrollment
map, stores the new score and notifies with the previous optional score. -/
def Student.updateWAM (s : Student) (course_id : String) (wam : Rat) :
    UpdateResult :=
  if wam < 0 ∨ 100 < wam then
    ⟨s, [], some ("Invalid WAM score. Must be between 0 and 100.")⟩
  else if (s.courses.lookup course_id).isSome then
    ⟨{ s with courses := updateAssoc course_id (some wam) s.courses },
     [⟨s.id, course_id, (s.courses.lookup course_id).join, wam⟩], none⟩
  else ⟨s, [], none⟩

/-- Student::overallWAM: arithmetic mean of the present scores, 0.0 when
none is present.  Floats are modelled exactly as rationals. -/
def Student.overallWAM (s : Student) : Rat :=
  let wams := s.courses.filterMap (fun kv => kv.2)
  if wams.isEmpty then 0 else wams.sum / (wams.length : Rat)

/-- Student::addObserver via Observable::addObserver. -/
def Student.addObserver (s : Student) (o : Nat) : Student :=
  { s with observers := s.observers ++ [o] }

/-- Teacher entity. -/
structure Teacher where
  id : String
  name : String
  email : String
  address : Address
  department : String
  specialization : String
  assigned_courses : List String
deriving DecidableEq

/-- Teacher constructor: assigned-course set starts empty. -/
def Teacher.new (id name email : String) (address : Address)
    (department specialization : String) : Teacher :=
  ⟨id, name, email, address, department, specialization, []⟩

/-- Course entity with the enrolled-student set and prerequisites. -/
structure Course where
  id : String
  name : String
  credits : Int
  capacity : Int
  enrolled_students : List String
  prerequisites : List String
deriving DecidableEq

/-- Course constructor: enrolled set and prerequisites start empty
(capacity defaults to 30 at the call sites of the source). -/
def Course.new (id name : String) (credits capacity : Int) : Course :=
  ⟨id, name, credits, capacity, [], []⟩

/-- Course::enrollStudent: inserts when enrolled_students.size() < capacity
under the size_t comparison and reports success; otherwise reports
failure without change. -/
def Course.enrollStudent (c : Course) (student_id : String) :
    Course × Bool :=
  if c.enrolled_students.length < usize c.capacity then
    ({ c with enrolled_students := insertSet student_id c.enrolled_students },
     true)
  else (c, false)

/-- School registry: the ordered entity collections of one institution. -/
structure School where
  name : String
  students : List Student
  teachers : List Teacher
  courses : List Course
deriving DecidableEq

/-- School constructor. -/
def School.new (name : String) : School := ⟨name, [], [], []⟩

/-- School::addStudent: push_back, no duplicate check. -/
def School.addStudent (st : School) (s : Student) : School :=
  { st with students := st.students ++ [s] }

/-- School::addTeacher: push_back, no duplicate check. -/
def School.addTeacher (st : School) (t : Teacher) : School :=
  { st with teachers := st.teachers ++ [t] }

/-- School::addCourse: push_back, no duplicate check. -/
def School.addCourse (st : School) (c : Course) : School :=
  { st with courses := st.courses ++ [c] }

/-- Result of School::enrollStudentInCourse: the registry afterwards, the
returned bool, the events emitted on the student's bus, and the cerr
diagnostic of the failure branches. -/
structure EnrollResult where
  school : School
  ok : Bool
  events : List ScoreEvent
  err : Option String
deriving DecidableEq

/-- School::enrollStudentInCourse: find_if on both collections; failure
diagnostic when either id does not resolve; otherwise Course::enrollStudent
first and, on its success, Student::enroll on the found student. -/
def School.enrollStudentInCourse (st : School) (student_id course_id : String) :
    EnrollResult :=
  match st.students.find? (fun s => s.id == student_id),
        st.courses.find? (fun c => c.id == course_id) with
  | some s, some c =>
    let ec := c.enrollStudent student_id
    let st1 : School :=
      { st with courses :=
          updateFirst (fun x => x.id == course_id) (fun _ => ec.1) st.courses }
    if ec.2 then
      let es := s.enroll course_id
      ⟨{ st1 with students :=
          updateFirst (fun x => x.id == student_id) (fun _ => es.1) st1.students },
       true, es.2, none⟩
    else ⟨st1, false, [], some ("Course " ++ course_id ++ " is full!")⟩
  | _, _ => ⟨st, false, [], some ("Student or course not found!")⟩

/-- Comparator order of getTopPerformers: non-increasing overall WAM. -/
def wamGe (a b : String × Rat) : Prop := b.2 ≤ a.2

instance : DecidableRel wamGe := fun a b =>
  inferInstanceAs (Decidable (b.2 ≤ a.2))

instance : IsTotal (String × Rat) wamGe := ⟨fun a b => le_total b.2 a.2⟩

instance : IsTrans (String × Rat) wamGe :=
  ⟨fun _ _ _ h1 h2 => le_trans h2 h1⟩

/-- School::getTopPerformers: pairs (name, overallWAM) sorted non-increasingly
by score, then the first n entries, where n > performers.size() compares n
converted to size_t and clamps n to the student count. -/
def School.getTopPerformers (st : School) (n : Int) : List (String × Rat) :=
  let performers := st.students.map (fun s => (s.name, s.overallWAM))
  let sorted := performers.insertionSort wamGe
  let k := if performers.length < usize n then performers.length else usize n
  sorted.take k

/-- Registry operations of the spec: registrations construct fresh entities
exactly as the C++ constructors do and enrollment goes through the
registry. -/
inductive Op
  | regStudent (id name email : String) (addr : Address) (gl : GradeLevel)
  | regTeacher (id name email : String) (addr : Address)
      (department specialization : String)
  | regCourse (id name : String) (credits capacity : Int)
  | enroll (student_id course_id : String)
deriving DecidableEq

/-- Application of one registry operation to the school state. -/
def applyOp (st : School) : Op → School
  | .regStudent i n e a g => st.addStudent (Student.new i n e a g)
  | .regTeacher i n e a d sp => st.addTeacher (Teacher.new i n e a d sp)
  | .regCourse i n cr cap => st.addCourse (Course.new i n cr cap)
  | .enroll sid cid => (st.enrollStudentInCourse sid cid).school

/-- Application of a sequence of registry operations. -/
def applyOps (st : School) (ops : List Op) : School :=
  ops.foldl applyOp st

/-- Ids of the registered students, in registration order. -/
def studentIds (st : School) : List String := st.students.map (fun s => s.id)

/-- Ids of the registered courses, in registration order. -/
def courseIds (st : School) : List String := st.courses.map (fun c => c.id)

/-- Freshness of the id a registration introduces, relative to the state. -/
def opFresh (st : School) : Op → Bool
  | .regStudent i _ _ _ _ => decide (i ∉ studentIds st)
  | .regCourse i _ _ _ => decide (i ∉ courseIds st)
  | _ => true

/-- Every registration in the sequence introduces an id that is fresh within
its kind at the moment it runs. -/
def regOk (st : School) : List Op → Bool
  | [] => true
  | op :: rest => opFresh st op && regOk (applyOp st op) rest

/-- Mutual consistency: a course id is a key of a student's enrollment map
exactly when the student's id is in that course's enrolled set. -/
def MutualConsistent (st : School) : Prop :=
  ∀ s ∈ st.students, ∀ c ∈ st.courses,
    ((s.courses.lookup c.id).isSome = true ↔ s.id ∈ c.enrolled_students)

instance (st : School) : Decidable (MutualConsistent st) := by
  unfold MutualConsistent
  infer_instance

/-! Helper lemmas about the list primitives of the embedding. -/

theorem find?_some_decomp {α : Type} {p : α → Bool} {l : List α} {a : α}
    (h : l.find? p = some a) :
    ∃ l1 l2, l = l1 ++ a :: l2 ∧ (∀ x ∈ l1, p x = false) := by
  induction l with
  | nil => simp at h
  | cons x xs ih =>
    by_cases hx : p x = true
    · rw [List.find?_cons_of_pos _ hx] at h
      obtain rfl : x = a := by simpa using h
      exact ⟨[], xs, rfl, by simp⟩
    · rw [List.find?_cons_of_neg _ (by simpa using hx)] at h
      obtain ⟨l1, l2, rfl, hl1⟩ := ih h
      refine ⟨x :: l1, l2, rfl, ?_⟩
      intro y hy
      rcases List.mem_cons.mp hy with rfl | hy
      · simpa using hx
      · exact hl1 y hy

theorem updateFirst_decomp {α : Type} {p : α → Bool} (f : α → α)
    {l1 : List α} (a : α) (l2 : List α)
    (hl1 : ∀ x ∈ l1, p x = false) (ha : p a = true) :
    updateFirst p f (l1 ++ a :: l2) = l1 ++ f a :: l2 := by
  induction l1 with
  | nil => simp [updateFirst, ha]
  | cons x xs ih =>
    have hx : p x = false := hl1 x (by simp)
    simp only [List.cons_append, updateFirst, hx]
    simp only [Bool.false_eq_true, if_false, List.cons.injEq, true_and]
    exact ih (fun y hy => hl1 y (by simp [hy]))

theorem find?_append_cons {α : Type} {p : α → Bool} {l1 : List α} {a : α}
    (l2 : List α) (hl1 : ∀ x ∈ l1, p x = false) (ha : p a = true) :
    (l1 ++ a :: l2).find? p = some a := by
  induction l1 with
  | nil =>
    rw [List.nil_append]
    exact List.find?_cons_of_pos _ ha
  | cons x xs ih =>
    have hx : p x = false := hl1 x (by simp)
    rw [List.cons_append, List.find?_cons_of_neg _ (by simp [hx])]
    exact ih (fun y hy => hl1 y (by simp [hy]))

theorem updateFirst_self {α : Type} {p : α → Bool} {l : List α} {a : α}
    (h : l.find? p = some a) : updateFirst p (fun _ => a) l = l := by
  obtain ⟨l1, l2, rfl, hl1⟩ := find?_some_decomp h
  exact updateFirst_decomp _ a l2 hl1 (List.find?_some h)

theorem lookup_append_left {β : Type} {l1 : List (String × β)}
    (l2 : List (String × β)) {k : String}
    (h : (l1.lookup k).isSome = true) : (l1 ++ l2).lookup k = l1.lookup k := by
  induction l1 with
  | nil => simp at h
  | cons kv l ih =>
    cases hk : k == kv.1
    · simp only [List.cons_append, List.lookup, hk] at h ⊢
      exact ih h
    · simp [List.cons_append, List.lookup, hk]

theorem lookup_append_right {β : Type} {l1 : List (String × β)}
    (l2 : List (String × β)) {k : String}
    (h : l1.lookup k = none) : (l1 ++ l2).lookup k = l2.lookup k := by
  induction l1 with
  | nil => simp
  | cons kv l ih =>
    cases hk : k == kv.1
    · simp only [List.cons_append, List.lookup, hk] at h ⊢
      exact ih h
    · simp only [List.lookup, hk] at h
      exact absurd h (by simp)

theorem lookup_singleton_self {β : Type} (k : String) (v : β) :
    ([(k, v)] : List (String × β)).lookup k = some v := by
  simp [List.lookup]

theorem lookup_singleton_ne {β : Type} {k k' : String} (v : β) (h : k' ≠ k) :
    ([(k, v)] : List (String × β)).lookup k' = none := by
  have hb : (k' == k) = false := beq_eq_false_iff_ne.mpr h
  simp [List.lookup, hb]

theorem mem_insertSet {x y : String} {l : List String} :
    x ∈ insertSet y l ↔ x = y ∨ x ∈ l := by
  unfold insertSet
  by_cases hy : y ∈ l
  · simp only [hy, if_true]
    constructor
    · exact fun h => Or.inr h
    · rintro (rfl | h)
      · exact hy
      · exact h
  · simp [hy, List.mem_append, or_comm]

theorem length_insertSet_le (y : String) (l : List String) :
    (insertSet y l).length ≤ l.length + 1 := by
  unfold insertSet
  by_cases hy : y ∈ l <;> simp [hy]

theorem lookup_updateAssoc_self (k : String) (v : Option Rat)
    (l : List (String × Option Rat)) :
    (updateAssoc k v l).lookup k = some v := by
  induction l with
  | nil => simp [updateAssoc, List.lookup]
  | cons kv rest ih =>
    by_cases hk : kv.1 = k
    · simp [updateAssoc, hk, List.lookup]
    · have : (k == kv.1) = false := by
        simp [hk]
        exact fun h => hk h.symm
      simp [updateAssoc, hk, List.lookup, this, ih]

theorem lookup_updateAssoc_ne {k k' : String} (v : Option Rat)
    (l : List (String × Option Rat)) (h : k' ≠ k) :
    (updateAssoc k v l).lookup k' = l.lookup k' := by
  have hb : (k' == k) = false := beq_eq_false_iff_ne.mpr h
  induction l with
  | nil => simp [updateAssoc, List.lookup, hb]
  | cons kv rest ih =>
    by_cases hk : kv.1 = k
    · simp [updateAssoc, hk, List.lookup, hb]
    · simp only [updateAssoc]
      rw [if_neg hk]
      cases hk' : k' == kv.1
      · simp [List.lookup, hk', ih]
      · simp [List.lookup, hk']

theorem updateAssoc_map_fst {k : String} {v : Option Rat}
    {l : List (String × Option Rat)} (h : (l.lookup k).isSome = true) :
    (updateAssoc k v l).map Prod.fst = l.map Prod.fst := by
  induction l with
  | nil => simp at h
  | cons kv rest ih =>
    by_cases hk : kv.1 = k
    · simp only [updateAssoc]
      rw [if_pos hk]
      simp [hk]
    · have hb : (k == kv.1) = false := beq_eq_false_iff_ne.mpr (fun h' => hk h'.symm)
      simp only [List.lookup, hb] at h
      simp only [updateAssoc]
      rw [if_neg hk]
      simp [ih h]

/-! Concrete entities used to instantiate the quantified theorems. -/

/-- Example address. -/
def exAddr : Address := ⟨("1 Way"), ("Town"), ("ST"), ("0000")⟩

/-- Example student S001. -/
def exS1 : Student :=
  Student.new ("S001") ("Alice") ("a@x.edu") exAddr GradeLevel.FRESHMAN

/-- Second student carrying the same id S001 as exS1. -/
def exS1b : Student :=
  Student.new ("S001") ("Bob") ("b@x.edu") exAddr GradeLevel.JUNIOR

/-- Example student already enrolled in CS101 with a stored score. -/
def exEnrolled : Student :=
  ⟨("S001"), ("Alice"), ("a@x.edu"), exAddr, GradeLevel.FRESHMAN,
   [(("CS101"), some 50)], []⟩

/-- Example student with scores 80 and 90 stored on two courses. -/
def exScored : Student :=
  ⟨("S001"), ("Alice"), ("a@x.edu"), exAddr, GradeLevel.FRESHMAN,
   [(("CS101"), some 80), (("CS201"), some 90)], []⟩

/-- Claim C4 (amended): each registration operation unconditionally appends
the entity to its collection and leaves the other collections unchanged;
no duplicate-id check is performed and no failure is reported. -/
theorem claim_C4_amended (st : School) (s : Student) (t : Teacher) (c : Course) :
    st.addStudent s = ⟨st.name, st.students ++ [s], st.teachers, st.courses⟩ ∧
    st.addTeacher t = ⟨st.name, st.students, st.teachers ++ [t], st.courses⟩ ∧
    st.addCourse c = ⟨st.name, st.students, st.teachers, st.courses ++ [c]⟩ :=
  ⟨rfl, rfl, rfl⟩

/-- Claim C4 counterexample: registering a second student whose id S001 is
already present neither fails nor leaves the collection unchanged: both
copies end up stored. -/
theorem claim_C4_counterexample :
    (((School.new ("U")).addStudent exS1).addStudent exS1b).students.length = 2 ∧
    exS1.id = exS1b.id := ⟨rfl, rfl⟩

/-- Claim C5: when either id fails to resolve, enrollStudentInCourse reports
the not-found diagnostic, returns false, leaves the registry unchanged,
and emits no observer event. -/
theorem claim_C5 (st : School) (sid cid : String)
    (h : st.students.find? (fun s => s.id == sid) = none ∨
         st.courses.find? (fun c => c.id == cid) = none) :
    st.enrollStudentInCourse sid cid =
      ⟨st, false, [], some ("Student or course not found!")⟩ := by
  rcases h with h | h
  · cases hc : st.courses.find? (fun c => c.id == cid) <;>
      simp [School.enrollStudentInCourse, h, hc]
  · cases hs : st.students.find? (fun s => s.id == sid) <;>
      simp [School.enrollStudentInCourse, h, hs]

/-- Witness for C5 on the empty registry. -/
theorem claim_C5_witness :
    (School.new ("U")).enrollStudentInCourse ("S001") ("CS101") =
      ⟨School.new ("U"), false, [], some ("Student or course not found!")⟩ :=
  claim_C5 _ _ _ (Or.inl rfl)

/-- Claim C7: updateWAM rejects scores outside the closed interval 0..100
with the out-of-range diagnostic, changing nothing (previously stored
scores included) and emitting nothing, while the boundary scores 0 and
100 pass the range check and, for an enrolled course, are stored. -/
theorem claim_C7 (s : Student) (cid : String) (w : Rat) :
    ((w < 0 ∨ 100 < w) →
      s.updateWAM cid w =
        ⟨s, [], some ("Invalid WAM score. Must be between 0 and 100.")⟩) ∧
    ((s.courses.lookup cid).isSome = true →
      ((s.updateWAM cid 0).student.courses.lookup cid = some (some 0) ∧
       (s.updateWAM cid 0).err = none ∧
       (s.updateWAM cid 100).student.courses.lookup cid = some (some 100) ∧
       (s.updateWAM cid 100).err = none)) := by
  constructor
  · intro hw
    unfold Student.updateWAM
    rw [if_pos hw]
  · intro hc
    have e0 : s.updateWAM cid 0 =
        ⟨{ s with courses := updateAssoc cid (some 0) s.courses },
         [⟨s.id, cid, (s.courses.lookup cid).join, 0⟩], none⟩ := by
      unfold Student.updateWAM
      rw [if_neg (by norm_num), if_pos hc]
    have e100 : s.updateWAM cid 100 =
        ⟨{ s with courses := updateAssoc cid (some 100) s.courses },
         [⟨s.id, cid, (s.courses.lookup cid).join, 100⟩], none⟩ := by
      unfold Student.updateWAM
      rw [if_neg (by norm_num), if_pos hc]
    rw [e0, e100]
    exact ⟨lookup_updateAssoc_self _ _ _, rfl,
           lookup_updateAssoc_self _ _ _, rfl⟩

/-- Witness for C7: the out-of-range score 105 is rejected without touching
exEnrolled's stored score, and the boundary score 0 is stored. -/
theorem claim_C7_witness :
    exEnrolled.updateWAM ("CS101") 105 =
      ⟨exEnrolled, [], some ("Invalid WAM score. Must be between 0 and 100.")⟩ ∧
    (exEnrolled.updateWAM ("CS101") 0).student.courses.lookup ("CS101") =
      some (some 0) := by
  refine ⟨(claim_C7 exEnrolled ("CS101") 105).1 (by norm_num), ?_⟩
  exact ((claim_C7 exEnrolled ("CS101") 105).2 (by decide)).1

/-- Claim C9: overallWAM is 0 when no score is present (empty enrollment map
or only no-score slots) and otherwise the arithmetic mean of the present
scores: it satisfies mean times count equals sum. -/
theorem claim_C9 (s : Student) :
    (s.courses.filterMap (fun kv => kv.2) = [] → s.overallWAM = 0) ∧
    ((∀ kv ∈ s.courses, kv.2 = none) → s.overallWAM = 0) ∧
    (s.courses.filterMap (fun kv => kv.2) ≠ [] →
      s.overallWAM * ((s.courses.filterMap (fun kv => kv.2)).length : Rat) =
        (s.courses.filterMap (fun kv => kv.2)).sum) := by
  refine ⟨?_, ?_, ?_⟩
  · intro h
    unfold Student.overallWAM
    simp [h]
  · intro h
    unfold Student.overallWAM
    have h' : s.courses.filterMap (fun kv => kv.2) = [] :=
      List.filterMap_eq_nil_iff.mpr h
    simp [h']
  · intro h
    unfold Student.overallWAM
    have hlen : (s.courses.filterMap (fun kv => kv.2)).length ≠ 0 := by
      simpa [List.length_eq_zero] using h
    have hcast : ((s.courses.filterMap (fun kv => kv.2)).length : Rat) ≠ 0 := by
      exact_mod_cast hlen
    simp only [List.isEmpty_iff, h, if_false]
    exact div_mul_cancel₀ _ hcast

/-- Witness for C9: scores 80 and 90 give overall WAM 85, and a freshly
constructed student has overall WAM 0. -/
theorem claim_C9_witness :
    exScored.overallWAM = 85 ∧
    (Student.new ("S009") ("Nia") ("n@x.edu") exAddr GradeLevel.SENIOR).overallWAM = 0 := by
  constructor
  · have h := (claim_C9 exScored).2.2 (by decide)
    simp only [exScored] at h ⊢
    simp only [List.filterMap_cons, List.filterMap_nil] at h
    norm_num at h
    linarith
  · exact (claim_C9 _).1 (by decide)

/-- Claim C10: for an enrolled course and an in-range score, updateWAM
changes only that course's score slot: the key set, every other slot, the
identity fields, the grade level and the observer list are unchanged. -/
theorem claim_C10 (s : Student) (cid : String) (w : Rat)
    (hc : (s.courses.lookup cid).isSome = true) (h0 : 0 ≤ w) (h1 : w ≤ 100) :
    ((s.updateWAM cid w).student.id = s.id ∧
     (s.updateWAM cid w).student.name = s.name ∧
     (s.updateWAM cid w).student.email = s.email ∧
     (s.updateWAM cid w).student.address = s.address ∧
     (s.updateWAM cid w).student.grade_level = s.grade_level ∧
     (s.updateWAM cid w).student.observers = s.observers) ∧
    (s.updateWAM cid w).student.courses.map Prod.fst = s.courses.map Prod.fst ∧
    (s.updateWAM cid w).student.courses.lookup cid = some (some w) ∧
    ∀ k, k ≠ cid → (s.updateWAM cid w).student.courses.lookup k = s.courses.lookup k := by
  have hw : ¬(w < 0 ∨ 100 < w) := by
    push_neg
    exact ⟨h0, h1⟩
  have e : s.updateWAM cid w =
      ⟨{ s with courses := updateAssoc cid (some w) s.courses },
       [⟨s.id, cid, (s.courses.lookup cid).join, w⟩], none⟩ := by
    unfold Student.updateWAM
    rw [if_neg hw, if_pos hc]
  rw [e]
  exact ⟨⟨rfl, rfl, rfl, rfl, rfl, rfl⟩, updateAssoc_map_fst hc,
         lookup_updateAssoc_self _ _ _, fun k hk => lookup_updateAssoc_ne _ _ hk⟩

/-- Witness for C10 at score 75 on exEnrolled's course CS101. -/
theorem claim_C10_witness :
    (exEnrolled.updateWAM ("CS101") 75).student.courses.lookup ("CS101") =
      some (some 75) ∧
    (exEnrolled.updateWAM ("CS101") 75).student.name = ("Alice") := by
  have h := claim_C10 exEnrolled ("CS101") 75 (by decide) (by norm_num) (by norm_num)
  exact ⟨h.2.2.1, h.1.2.1⟩

/-- Claim C3 counterexample: with one registered student, getTopPerformers
applied to the negative count -1 returns that student rather than the
empty sequence, because n is converted to size_t in the clamping
comparison. -/
theorem claim_C3_counterexample :
    ((School.new ("U")).addStudent exS1).getTopPerformers (-1) =
      [(("Alice"), 0)] := by
  decide

/-- Claim C3 (amended): getTopPerformers n is sorted non-increasingly by
overall WAM; for 0 ≤ n < 2^64 its length is min n |students|; for
negative n the signed-to-unsigned conversion makes the clamp keep the
whole list, so all students are returned instead of the empty sequence.
Tie order among equal WAMs is left unspecified by the source's unstable
sort and is not asserted. -/
theorem claim_C3_amended (st : School) (n : Int) :
    List.Sorted wamGe (st.getTopPerformers n) ∧
    (0 ≤ n → n < 2 ^ 64 →
      (st.getTopPerformers n).length = min n.toNat st.students.length) ∧
    (n < 0 → -2 ^ 63 ≤ n → st.students.length < 2 ^ 63 →
      (st.getTopPerformers n).length = st.students.length) := by
  refine ⟨?_, ?_, ?_⟩
  · exact List.Pairwise.sublist (List.take_sublist _ _)
      (List.sorted_insertionSort wamGe _)
  · intro h0 h64
    have hu : usize n = n.toNat := by
      unfold usize
      rw [Int.emod_eq_of_lt h0 h64]
    simp only [School.getTopPerformers, List.length_take,
      List.length_insertionSort, List.length_map, hu]
    split <;> omega
  · intro hn hlow hlen
    have hu : st.students.length < usize n := by
      unfold usize
      have e : (2 : Int) ^ 64 = 18446744073709551616 := by norm_num
      have e63 : (2 : Int) ^ 63 = 9223372036854775808 := by norm_num
      have e63n : (2 : Nat) ^ 63 = 9223372036854775808 := by norm_num
      rw [e]
      rw [e63] at hlow
      rw [e63n] at hlen
      omega
    simp only [School.getTopPerformers, List.length_take,
      List.length_insertionSort, List.length_map]
    rw [if_pos hu]
    omega

/-- Witness for C3 (amended) on a one-student registry at n equal to 1 and
to -1. -/
theorem claim_C3_amended_witness :
    (((School.new ("U")).addStudent exS1).getTopPerformers 1).length = 1 ∧
    (((School.new ("U")).addStudent exS1).getTopPerformers (-1)).length = 1 := by
  constructor
  · have h := (claim_C3_amended ((School.new ("U")).addStudent exS1) 1).2.1
      (by norm_num) (by norm_num)
    rw [h]
    decide
  · have h := (claim_C3_amended ((School.new ("U")).addStudent exS1) (-1)).2.2
      (by norm_num) (by norm_num) (by decide)
    rw [h]
    decide

theorem find?_updateFirst {α : Type} {p : α → Bool} {l : List α} {a : α}
    (f : α → α) (h : l.find? p = some a) (hf : p (f a) = true) :
    (updateFirst p f l).find? p = some (f a) := by
  obtain ⟨l1, l2, rfl, hl1⟩ := find?_some_decomp h
  rw [updateFirst_decomp f a l2 hl1 (List.find?_some h)]
  exact find?_append_cons l2 hl1 hf

/-- Unfolding of the success branch of School::enrollStudentInCourse. -/
theorem enroll_success_unfold (st : School) (sid cid : String)
    (s : Student) (c : Course)
    (hs : st.students.find? (fun x => x.id == sid) = some s)
    (hc : st.courses.find? (fun x => x.id == cid) = some c)
    (hcap : c.enrolled_students.length < usize c.capacity) :
    st.enrollStudentInCourse sid cid =
      ⟨⟨st.name,
        updateFirst (fun x => x.id == sid) (fun _ => (s.enroll cid).1) st.students,
        st.teachers,
        updateFirst (fun x => x.id == cid)
          (fun _ => { c with enrolled_students := insertSet sid c.enrolled_students })
          st.courses⟩,
       true, (s.enroll cid).2, none⟩ := by
  have hec : c.enrollStudent sid =
      ({ c with enrolled_students := insertSet sid c.enrolled_students }, true) := by
    unfold Course.enrollStudent
    rw [if_pos hcap]
  unfold School.enrollStudentInCourse
  rw [hs, hc]
  simp only [hec]
  rw [if_pos trivial]

/-- Unfolding of the full-course branch of School::enrollStudentInCourse:
the registry is left unchanged and false is returned. -/
theorem enroll_full_unfold (st : School) (sid cid : String)
    (s : Student) (c : Course)
    (hs : st.students.find? (fun x => x.id == sid) = some s)
    (hc : st.courses.find? (fun x => x.id == cid) = some c)
    (hcap : ¬(c.enrolled_students.length < usize c.capacity)) :
    st.enrollStudentInCourse sid cid =
      ⟨st, false, [], some ("Course " ++ cid ++ " is full!")⟩ := by
  have hec : c.enrollStudent sid = (c, false) := by
    unfold Course.enrollStudent
    rw [if_neg hcap]
  unfold School.enrollStudentInCourse
  rw [hs, hc]
  simp only [hec, Bool.false_eq_true, if_false]
  rw [updateFirst_self hc]

/-- Unfolding of Student::enroll when the course is not yet in the map. -/
theorem student_enroll_new {s : Student} {cid : String}
    (hnew : s.courses.lookup cid = none) :
    s.enroll cid =
      ({ s with courses := s.courses ++ [(cid, none)] },
       [⟨s.id, cid, none, 0⟩]) := by
  unfold Student.enroll
  rw [hnew]
  rfl

/-- Unfolding of Student::enroll when the course is already in the map. -/
theorem student_enroll_old {s : Student} {cid : String}
    (hold : (s.courses.lookup cid).isSome = true) :
    s.enroll cid = (s, []) := by
  unfold Student.enroll
  rw [hold]
  rfl

/-- Claim C6: when both ids resolve, the course has a free seat, and the
student is not yet enrolled, enroll succeeds with exactly one event
(sid, cid, old none, new 0.0); afterwards the student's map holds cid
mapped to no-score and the course's enrolled set holds sid. -/
theorem claim_C6 (st : School) (sid cid : String) (s : Student) (c : Course)
    (hs : st.students.find? (fun x => x.id == sid) = some s)
    (hc : st.courses.find? (fun x => x.id == cid) = some c)
    (hcap : c.enrolled_students.length < usize c.capacity)
    (hnew : s.courses.lookup cid = none) :
    (st.enrollStudentInCourse sid cid).ok = true ∧
    (st.enrollStudentInCourse sid cid).err = none ∧
    (st.enrollStudentInCourse sid cid).events = [⟨sid, cid, none, 0⟩] ∧
    ∃ s' c',
      (st.enrollStudentInCourse sid cid).school.students.find?
        (fun x => x.id == sid) = some s' ∧
      (st.enrollStudentInCourse sid cid).school.courses.find?
        (fun x => x.id == cid) = some c' ∧
      s'.courses.lookup cid = some none ∧
      sid ∈ c'.enrolled_students ∧
      s'.courses = s.courses ++ [(cid, none)] ∧
      c'.enrolled_students = insertSet sid c.enrolled_students := by
  have hsid : s.id = sid := by
    have h' := List.find?_some hs
    simpa using h'
  have hcid : c.id = cid := by
    have h' := List.find?_some hc
    simpa using h'
  have hes := student_enroll_new hnew
  rw [enroll_success_unfold st sid cid s c hs hc hcap]
  simp only [hes]
  refine ⟨by trivial, by trivial, ?_, ?_⟩
  · rw [hsid]
  · refine ⟨{ s with courses := s.courses ++ [(cid, none)] },
            { c with enrolled_students := insertSet sid c.enrolled_students },
            ?_, ?_, ?_, ?_, rfl, rfl⟩
    · simpa using find?_updateFirst
        (fun _ => { s with courses := s.courses ++ [(cid, none)] }) hs
        (by simpa using hsid)
    · simpa using find?_updateFirst
        (fun _ => { c with enrolled_students := insertSet sid c.enrolled_students }) hc
        (by simpa using hcid)
    · rw [lookup_append_right _ hnew]
      exact lookup_singleton_self _ _
    · exact mem_insertSet.mpr (Or.inl rfl)

/-- Course CS101 with capacity 2, as in the happy-enrollment scenario. -/
def exCourse : Course := Course.new ("CS101") ("Programming Paradigms") 4 2

/-- Registry holding student S001 and course CS101. -/
def exSchool : School :=
  ((School.new ("U")).addStudent exS1).addCourse exCourse

/-- Witness for C6: the happy-enrollment scenario on exSchool. -/
theorem claim_C6_witness :
    (exSchool.enrollStudentInCourse ("S001") ("CS101")).ok = true ∧
    (exSchool.enrollStudentInCourse ("S001") ("CS101")).events =
      [⟨("S001"), ("CS101"), none, 0⟩] := by
  have h := claim_C6 exSchool ("S001") ("CS101") exS1 exCourse
    (by decide) (by decide) (by decide) (by decide)
  exact ⟨h.1, h.2.2.1⟩

theorem insertSet_mem {y : String} {l : List String} (h : y ∈ l) :
    insertSet y l = l := by
  unfold insertSet
  exact if_pos h

/-- Unfolding of the not-found branch of School::enrollStudentInCourse. -/
theorem enroll_notfound_unfold (st : School) (sid cid : String)
    (h : st.students.find? (fun s => s.id == sid) = none ∨
         st.courses.find? (fun c => c.id == cid) = none) :
    st.enrollStudentInCourse sid cid =
      ⟨st, false, [], some ("Student or course not found!")⟩ := by
  rcases h with h | h
  · cases hc : st.courses.find? (fun c => c.id == cid) <;>
      simp [School.enrollStudentInCourse, h, hc]
  · cases hs : st.students.find? (fun s => s.id == sid) <;>
      simp [School.enrollStudentInCourse, h, hs]

/-- Course X with capacity 1, as in the capacity scenario. -/
def exCourseCap1 : Course := Course.new ("X") ("Tiny") 4 1

/-- Registry with student S001 and the capacity-1 course X. -/
def exSchoolCap1 : School :=
  ((School.new ("U")).addStudent exS1).addCourse exCourseCap1

/-- Claim C2 counterexample: on a capacity-1 course the first enroll
succeeds, but re-enrolling the same pair returns false, not true: the
capacity test runs before the duplicate test. -/
theorem claim_C2_counterexample :
    (exSchoolCap1.enrollStudentInCourse ("S001") ("X")).ok = true ∧
    ((exSchoolCap1.enrollStudentInCourse ("S001") ("X")).school.enrollStudentInCourse
        ("S001") ("X")).ok = false := by
  decide

/-- Claim C2 (amended): after a successful enroll(sid, cid), repeating the
same enroll leaves the registry exactly unchanged and emits no observer
event, so the pair of calls emits only the first call's events — exactly
one when the first call created the link; however the repeat returns true
only when the course is still below capacity under the size_t comparison,
and returns false (reporting the course full) otherwise. -/
theorem claim_C2_amended (st : School) (sid cid : String)
    (hok : (st.enrollStudentInCourse sid cid).ok = true) :
    ((st.enrollStudentInCourse sid cid).school.enrollStudentInCourse sid cid).school =
      (st.enrollStudentInCourse sid cid).school ∧
    ((st.enrollStudentInCourse sid cid).school.enrollStudentInCourse sid cid).events = [] ∧
    (((st.enrollStudentInCourse sid cid).school.enrollStudentInCourse sid cid).ok = true ↔
      (∃ c', (st.enrollStudentInCourse sid cid).school.courses.find?
               (fun x => x.id == cid) = some c' ∧
             c'.enrolled_students.length < usize c'.capacity)) ∧
    (∀ s0, st.students.find? (fun x => x.id == sid) = some s0 →
      s0.courses.lookup cid = none →
      (st.enrollStudentInCourse sid cid).events = [⟨sid, cid, none, 0⟩]) := by
  cases hs : st.students.find? (fun x => x.id == sid) with
  | none =>
    rw [enroll_notfound_unfold st sid cid (Or.inl hs)] at hok
    simp at hok
  | some s =>
  cases hc : st.courses.find? (fun x => x.id == cid) with
  | none =>
    rw [enroll_notfound_unfold st sid cid (Or.inr hc)] at hok
    simp at hok
  | some c =>
  by_cases hcap : c.enrolled_students.length < usize c.capacity
  · have hsid : s.id = sid := by
      have h' := List.find?_some hs
      simpa using h'
    have hcid : c.id = cid := by
      have h' := List.find?_some hc
      simpa using h'
    have hid1 : (s.enroll cid).1.id = s.id := by
      cases hl : s.courses.lookup cid with
      | some v => rw [student_enroll_old (by rw [hl]; rfl)]
      | none => rw [student_enroll_new hl]
    have hds1 : ((s.enroll cid).1.courses.lookup cid).isSome = true := by
      cases hl : s.courses.lookup cid with
      | some v =>
        rw [student_enroll_old (by rw [hl]; rfl)]
        rw [hl]
        rfl
      | none =>
        rw [student_enroll_new hl]
        simp only []
        rw [lookup_append_right _ hl, lookup_singleton_self]
        rfl
    have e1 := enroll_success_unfold st sid cid s c hs hc hcap
    have hs2 : (updateFirst (fun x => x.id == sid)
        (fun _ => (s.enroll cid).1) st.students).find? (fun x => x.id == sid) =
        some (s.enroll cid).1 :=
      find?_updateFirst _ hs (by simp [hid1, hsid])
    have hc2 : (updateFirst (fun x => x.id == cid)
        (fun _ => { c with enrolled_students := insertSet sid c.enrolled_students })
        st.courses).find? (fun x => x.id == cid) =
        some { c with enrolled_students := insertSet sid c.enrolled_students } :=
      find?_updateFirst _ hc (by simp [hcid])
    have hmem : sid ∈ insertSet sid c.enrolled_students :=
      mem_insertSet.mpr (Or.inl rfl)
    by_cases hcap2 : (insertSet sid c.enrolled_students).length < usize c.capacity
    · have e2 := enroll_success_unfold
        ⟨st.name,
         updateFirst (fun x => x.id == sid) (fun _ => (s.enroll cid).1) st.students,
         st.teachers,
         updateFirst (fun x => x.id == cid)
           (fun _ => { c with enrolled_students := insertSet sid c.enrolled_students })
           st.courses⟩
        sid cid (s.enroll cid).1
        { c with enrolled_students := insertSet sid c.enrolled_students }
        hs2 hc2 hcap2
      refine ⟨?_, ?_, ?_, ?_⟩
      · simp only [e1, e2, student_enroll_old hds1, insertSet_mem hmem,
          updateFirst_self hs2, updateFirst_self hc2]
      · simp only [e1, e2, student_enroll_old hds1]
      · have hok2 : ((st.enrollStudentInCourse sid cid).school.enrollStudentInCourse
            sid cid).ok = true := by
          simp only [e1, e2]
        rw [hok2]
        simp only [e1]
        exact iff_of_true trivial ⟨_, hc2, hcap2⟩
      · intro s0 hs0 hl0
        have hss : s = s0 := Option.some.inj hs0
        subst hss
        simp only [e1, student_enroll_new hl0, hsid]
    · have e2 := enroll_full_unfold
        ⟨st.name,
         updateFirst (fun x => x.id == sid) (fun _ => (s.enroll cid).1) st.students,
         st.teachers,
         updateFirst (fun x => x.id == cid)
           (fun _ => { c with enrolled_students := insertSet sid c.enrolled_students })
           st.courses⟩
        sid cid (s.enroll cid).1
        { c with enrolled_students := insertSet sid c.enrolled_students }
        hs2 hc2 hcap2
      refine ⟨?_, ?_, ?_, ?_⟩
      · simp only [e1, e2]
      · simp only [e1, e2]
      · have hok2 : ((st.enrollStudentInCourse sid cid).school.enrollStudentInCourse
            sid cid).ok = false := by
          simp only [e1, e2]
        rw [hok2]
        simp only [e1]
        refine iff_of_false (by simp) ?_
        rintro ⟨c', hfind, hlt⟩
        rw [hc2] at hfind
        have hcc : ({ c with enrolled_students := insertSet sid c.enrolled_students } :
            Course) = c' := Option.some.inj hfind
        rw [← hcc] at hlt
        exact absurd hlt hcap2
      · intro s0 hs0 hl0
        have hss : s = s0 := Option.some.inj hs0
        subst hss
        simp only [e1, student_enroll_new hl0, hsid]
  · rw [enroll_full_unfold st sid cid s c hs hc hcap] at hok
    simp at hok

/-- Witness for C2 (amended): re-enrolling S001 in the capacity-2 course
CS101 changes nothing, emits nothing, and the first call emitted the one
enrollment event. -/
theorem claim_C2_amended_witness :
    ((exSchool.enrollStudentInCourse ("S001") ("CS101")).school.enrollStudentInCourse
        ("S001") ("CS101")).school =
      (exSchool.enrollStudentInCourse ("S001") ("CS101")).school ∧
    ((exSchool.enrollStudentInCourse ("S001") ("CS101")).school.enrollStudentInCourse
        ("S001") ("CS101")).events = [] ∧
    (exSchool.enrollStudentInCourse ("S001") ("CS101")).events =
      [⟨("S001"), ("CS101"), none, 0⟩] := by
  have h := claim_C2_amended exSchool ("S001") ("CS101") (by decide)
  exact ⟨h.1, h.2.1, h.2.2.2 exS1 (by decide) (by decide)⟩

theorem mem_updateFirst {α : Type} {p : α → Bool} {f : α → α} {l : List α} {x : α}
    (hx : x ∈ updateFirst p f l) :
    x ∈ l ∨ ∃ a, l.find? p = some a ∧ x = f a := by
  induction l with
  | nil => simp [updateFirst] at hx
  | cons y ys ih =>
    by_cases hy : p y = true
    · rw [updateFirst, if_pos hy] at hx
      rcases List.mem_cons.mp hx with rfl | hx
      · exact Or.inr ⟨y, List.find?_cons_of_pos _ hy, rfl⟩
      · exact Or.inl (List.mem_cons_of_mem _ hx)
    · rw [updateFirst, if_neg hy] at hx
      rcases List.mem_cons.mp hx with rfl | hx
      · exact Or.inl (List.mem_cons_self _ _)
      · rcases ih hx with h | ⟨a, hfind, rfl⟩
        · exact Or.inl (List.mem_cons_of_mem _ h)
        · refine Or.inr ⟨a, ?_, rfl⟩
          rw [List.find?_cons_of_neg _ (by simpa using hy), hfind]

/-- Capacity invariant: every course whose capacity is a nonnegative int
holds at most capacity enrolled students. -/
def CapacityOk (st : School) : Prop :=
  ∀ c ∈ st.courses, 0 ≤ c.capacity → c.capacity < 2 ^ 64 →
    (c.enrolled_students.length : Int) ≤ c.capacity

theorem capacityOk_applyOp {st : School} (op : Op) (h : CapacityOk st) :
    CapacityOk (applyOp st op) := by
  cases op with
  | regStudent i n e a g => exact fun c hc => h c hc
  | regTeacher i n e a d sp => exact fun c hc => h c hc
  | regCourse i n cr cap =>
    intro c hc
    rcases List.mem_append.mp hc with hc | hc
    · exact h c hc
    · obtain rfl : c = Course.new i n cr cap := List.mem_singleton.mp hc
      intro h0 _
      simpa [Course.new] using h0
  | enroll sid cid =>
    cases hs : st.students.find? (fun x => x.id == sid) with
    | none =>
      have e := enroll_notfound_unfold st sid cid (Or.inl hs)
      intro c hc
      simp only [applyOp, e] at hc
      exact h c hc
    | some s =>
    cases hc0 : st.courses.find? (fun x => x.id == cid) with
    | none =>
      have e := enroll_notfound_unfold st sid cid (Or.inr hc0)
      intro c hc
      simp only [applyOp, e] at hc
      exact h c hc
    | some c0 =>
    by_cases hcap : c0.enrolled_students.length < usize c0.capacity
    · have e := enroll_success_unfold st sid cid s c0 hs hc0 hcap
      intro c hc
      simp only [applyOp, e] at hc
      rcases mem_updateFirst hc with hmem | ⟨a, hfind, rfl⟩
      · exact h c hmem
      · rw [hc0] at hfind
        obtain rfl : c0 = a := Option.some.inj hfind
        intro h0 h64
        have h0' : 0 ≤ c0.capacity := h0
        have h64' : c0.capacity < 2 ^ 64 := h64
        show ((insertSet sid c0.enrolled_students).length : Int) ≤ c0.capacity
        have hlen := length_insertSet_le sid c0.enrolled_students
        have hus : usize c0.capacity = c0.capacity.toNat := by
          unfold usize
          rw [Int.emod_eq_of_lt h0' h64']
        rw [hus] at hcap
        omega
    · have e := enroll_full_unfold st sid cid s c0 hs hc0 hcap
      intro c hc
      simp only [applyOp, e] at hc
      exact h c hc

theorem capacityOk_applyOps {st : School} (ops : List Op) (h : CapacityOk st) :
    CapacityOk (applyOps st ops) := by
  induction ops generalizing st with
  | nil => exact h
  | cons op rest ih => exact ih (capacityOk_applyOp op h)

/-- Operation sequence registering a course with the negative capacity -1
and then enrolling a student in it. -/
def exOpsNeg : List Op :=
  [Op.regStudent ("S001") ("Alice") ("a@x.edu") exAddr GradeLevel.FRESHMAN,
   Op.regCourse ("N") ("Weird") 3 (-1),
   Op.enroll ("S001") ("N")]

/-- Claim C8 counterexample: a course registered with capacity -1 accepts an
enrollment, because the size_t comparison turns -1 into a huge bound; the
resulting state violates the cardinality-at-most-capacity invariant. -/
theorem claim_C8_counterexample :
    ∃ c ∈ (applyOps (School.new ("U")) exOpsNeg).courses,
      ¬((c.enrolled_students.length : Int) ≤ c.capacity) := by
  decide

/-- Claim C8 (amended): after any operation sequence every course with a
nonnegative int capacity has at most capacity enrolled students; an
enroll on a resolvable pair succeeds whenever the course is below
capacity; and an enroll on a full course returns false with the full
diagnostic and a completely unchanged registry. -/
theorem claim_C8_amended (name : String) (ops : List Op) :
    (∀ c ∈ (applyOps (School.new name) ops).courses,
       0 ≤ c.capacity → c.capacity < 2 ^ 64 →
       (c.enrolled_students.length : Int) ≤ c.capacity) ∧
    (∀ (st : School) (sid cid : String) (s : Student) (c : Course),
       st.students.find? (fun x => x.id == sid) = some s →
       st.courses.find? (fun x => x.id == cid) = some c →
       c.enrolled_students.length < usize c.capacity →
       (st.enrollStudentInCourse sid cid).ok = true) ∧
    (∀ (st : School) (sid cid : String) (s : Student) (c : Course),
       st.students.find? (fun x => x.id == sid) = some s →
       st.courses.find? (fun x => x.id == cid) = some c →
       ¬(c.enrolled_students.length < usize c.capacity) →
       st.enrollStudentInCourse sid cid =
         ⟨st, false, [], some ("Course " ++ cid ++ " is full!")⟩) := by
  refine ⟨?_, ?_, ?_⟩
  · refine capacityOk_applyOps ops ?_
    intro c hc
    simp [School.new] at hc
  · intro st sid cid s c hs hc hcap
    rw [enroll_success_unfold st sid cid s c hs hc hcap]
  · intro st sid cid s c hs hc hcap
    exact enroll_full_unfold st sid cid s c hs hc hcap

/-- Witness for C8 (amended): enrolling below capacity succeeds, the second
enroll on the filled capacity-1 course X returns false, and the empty
registry satisfies the capacity invariant. -/
theorem claim_C8_amended_witness :
    (exSchool.enrollStudentInCourse ("S001") ("CS101")).ok = true ∧
    ((exSchoolCap1.enrollStudentInCourse ("S001") ("X")).school.enrollStudentInCourse
        ("S001") ("X")).ok = false ∧
    ∀ c ∈ (applyOps (School.new ("U")) []).courses,
      0 ≤ c.capacity → c.capacity < 2 ^ 64 →
      (c.enrolled_students.length : Int) ≤ c.capacity := by
  have h := claim_C8_amended ("U") []
  refine ⟨?_, ?_, h.1⟩
  · exact h.2.1 exSchool ("S001") ("CS101") exS1 exCourse
      (by decide) (by decide) (by decide)
  · have h3 := h.2.2 ((exSchoolCap1.enrollStudentInCourse ("S001") ("X")).school)
      ("S001") ("X")
      ⟨("S001"), ("Alice"), ("a@x.edu"), exAddr, GradeLevel.FRESHMAN,
       [(("X"), none)], []⟩
      ⟨("X"), ("Tiny"), 4, 1, [("S001")], []⟩
      (by decide) (by decide) (by decide)
    rw [h3]

theorem nodup_middle_not_mem {l1 l2 : List String} {a : String}
    (h : (l1 ++ a :: l2).Nodup) : a ∉ l1 ∧ a ∉ l2 := by
  rw [List.nodup_append] at h
  obtain ⟨h1, h2, hd⟩ := h
  exact ⟨fun ha => hd ha (List.mem_cons_self _ _), (List.nodup_cons.mp h2).1⟩

theorem student_enroll_id (s : Student) (cid : String) :
    (s.enroll cid).1.id = s.id := by
  unfold Student.enroll
  by_cases hl : (s.courses.lookup cid).isSome = true
  · rw [if_pos hl]
  · rw [if_neg hl]

theorem student_enroll_lookup_self (s : Student) (cid : String) :
    ((s.enroll cid).1.courses.lookup cid).isSome = true := by
  unfold Student.enroll
  by_cases hl : (s.courses.lookup cid).isSome = true
  · rw [if_pos hl]
    exact hl
  · rw [if_neg hl]
    show ((s.courses ++ [(cid, none)]).lookup cid).isSome = true
    cases hlk : s.courses.lookup cid with
    | some v =>
      rw [hlk] at hl
      exact absurd rfl hl
    | none =>
      rw [lookup_append_right _ hlk, lookup_singleton_self]
      rfl

theorem student_enroll_lookup_ne (s : Student) {cid k : String} (hk : k ≠ cid) :
    (s.enroll cid).1.courses.lookup k = s.courses.lookup k := by
  unfold Student.enroll
  by_cases hl : (s.courses.lookup cid).isSome = true
  · rw [if_pos hl]
  · rw [if_neg hl]
    show (s.courses ++ [(cid, none)]).lookup k = s.courses.lookup k
    cases hlk : s.courses.lookup k with
    | some v => rw [lookup_append_left _ (by rw [hlk]; rfl), hlk]
    | none => rw [lookup_append_right _ hlk, lookup_singleton_ne _ hk]

theorem student_enroll_keys (s : Student) (cid : String) {k : String}
    (hk : ((s.enroll cid).1.courses.lookup k).isSome = true) :
    (s.courses.lookup k).isSome = true ∨ k = cid := by
  by_cases hkc : k = cid
  · exact Or.inr hkc
  · rw [student_enroll_lookup_ne s hkc] at hk
    exact Or.inl hk

/-- Strengthened invariant behind claim C1: ids are duplicate-free within
each kind, mutual consistency holds, enrolled ids point to registered
students and enrollment-map keys point to registered courses. -/
structure RegInv (st : School) : Prop where
  sNodup : (studentIds st).Nodup
  cNodup : (courseIds st).Nodup
  mc : MutualConsistent st
  enrClosed : ∀ c ∈ st.courses, ∀ x ∈ c.enrolled_students, x ∈ studentIds st
  keyClosed : ∀ s ∈ st.students, ∀ k : String,
    (s.courses.lookup k).isSome = true → k ∈ courseIds st

theorem regInv_enroll_core {st : School} {sid cid : String}
    {s : Student} {c : Course}
    {L1 L2 : List Student} {M1 M2 : List Course}
    (h : RegInv st)
    (hsdec : st.students = L1 ++ s :: L2)
    (hcdec : st.courses = M1 ++ c :: M2)
    (hL1 : ∀ x ∈ L1, (x.id == sid) = false)
    (hM1 : ∀ x ∈ M1, (x.id == cid) = false)
    (hsid : s.id = sid) (hcid : c.id = cid)
    (st' : School)
    (hstS : st'.students = L1 ++ (s.enroll cid).1 :: L2)
    (hstC : st'.courses =
      M1 ++ { c with enrolled_students := insertSet sid c.enrolled_students } :: M2) :
    RegInv st' := by
  have hsmem : s ∈ st.students := by
    rw [hsdec]
    exact List.mem_append_right _ (List.mem_cons_self _ _)
  have hcmem : c ∈ st.courses := by
    rw [hcdec]
    exact List.mem_append_right _ (List.mem_cons_self _ _)
  have hnodupS : (L1.map (fun x => x.id) ++ s.id :: L2.map (fun x => x.id)).Nodup := by
    have hn := h.sNodup
    simp only [studentIds] at hn
    rw [hsdec] at hn
    simpa using hn
  have hnodupC : (M1.map (fun x => x.id) ++ c.id :: M2.map (fun x => x.id)).Nodup := by
    have hn := h.cNodup
    simp only [courseIds] at hn
    rw [hcdec] at hn
    simpa using hn
  have hL2id : ∀ x ∈ L2, x.id ≠ sid := by
    intro x hx heq
    have hm : x.id ∈ L2.map (fun y => y.id) := List.mem_map_of_mem _ hx
    rw [heq, ← hsid] at hm
    exact (nodup_middle_not_mem hnodupS).2 hm
  have hM2id : ∀ x ∈ M2, x.id ≠ cid := by
    intro x hx heq
    have hm : x.id ∈ M2.map (fun y => y.id) := List.mem_map_of_mem _ hx
    rw [heq, ← hcid] at hm
    exact (nodup_middle_not_mem hnodupC).2 hm
  have hscases : ∀ s', s' ∈ L1 ++ (s.enroll cid).1 :: L2 →
      s' = (s.enroll cid).1 ∨ (s' ∈ st.students ∧ s'.id ≠ sid) := by
    intro s' hs'
    rcases List.mem_append.mp hs' with hs' | hs'
    · refine Or.inr ⟨by rw [hsdec]; exact List.mem_append_left _ hs', ?_⟩
      simpa using hL1 s' hs'
    · rcases List.mem_cons.mp hs' with rfl | hs'
      · exact Or.inl rfl
      · exact Or.inr ⟨by
          rw [hsdec]
          exact List.mem_append_right _ (List.mem_cons_of_mem _ hs'),
          hL2id s' hs'⟩
  have hccases : ∀ c', c' ∈ M1 ++
      ({ c with enrolled_students := insertSet sid c.enrolled_students } : Course) :: M2 →
      c' = { c with enrolled_students := insertSet sid c.enrolled_students } ∨
        (c' ∈ st.courses ∧ c'.id ≠ cid) := by
    intro c' hc'
    rcases List.mem_append.mp hc' with hc' | hc'
    · refine Or.inr ⟨by rw [hcdec]; exact List.mem_append_left _ hc', ?_⟩
      simpa using hM1 c' hc'
    · rcases List.mem_cons.mp hc' with rfl | hc'
      · exact Or.inl rfl
      · exact Or.inr ⟨by
          rw [hcdec]
          exact List.mem_append_right _ (List.mem_cons_of_mem _ hc'),
          hM2id c' hc'⟩
  have hidsS : studentIds st' = studentIds st := by
    simp only [studentIds]
    rw [hstS, hsdec]
    simp [student_enroll_id]
  have hidsC : courseIds st' = courseIds st := by
    simp only [courseIds]
    rw [hstC, hcdec]
    simp
  refine ⟨?_, ?_, ?_, ?_, ?_⟩
  · rw [hidsS]
    exact h.sNodup
  · rw [hidsC]
    exact h.cNodup
  · intro s' hs' c' hc'
    rw [hstS] at hs'
    rw [hstC] at hc'
    rcases hscases s' hs' with rfl | ⟨hs'mem, hs'id⟩
    · rcases hccases c' hc' with rfl | ⟨hc'mem, hc'id⟩
      · refine iff_of_true ?_ ?_
        · show (((s.enroll cid).1.courses.lookup c.id).isSome = true)
          rw [hcid]
          exact student_enroll_lookup_self s cid
        · show (s.enroll cid).1.id ∈ insertSet sid c.enrolled_students
          rw [student_enroll_id, hsid]
          exact mem_insertSet.mpr (Or.inl rfl)
      · rw [student_enroll_lookup_ne s hc'id, student_enroll_id]
        exact h.mc s hsmem c' hc'mem
    · rcases hccases c' hc' with rfl | ⟨hc'mem, hc'id⟩
      · have hold := h.mc s' hs'mem c hcmem
        show ((s'.courses.lookup c.id).isSome = true) ↔
          s'.id ∈ insertSet sid c.enrolled_students
        constructor
        · intro hk
          exact mem_insertSet.mpr (Or.inr (hold.mp hk))
        · intro hk
          rcases mem_insertSet.mp hk with heq | hk2
          · exact absurd heq hs'id
          · exact hold.mpr hk2
      · exact h.mc s' hs'mem c' hc'mem
  · intro c' hc' x hx
    rw [hstC] at hc'
    rw [hidsS]
    rcases hccases c' hc' with rfl | ⟨hc'mem, _⟩
    · rcases mem_insertSet.mp hx with rfl | hx2
      · rw [← hsid]
        exact List.mem_map_of_mem _ hsmem
      · exact h.enrClosed c hcmem x hx2
    · exact h.enrClosed c' hc'mem x hx
  · intro s' hs' k hk
    rw [hstS] at hs'
    rw [hidsC]
    rcases hscases s' hs' with rfl | ⟨hs'mem, _⟩
    · rcases student_enroll_keys s cid hk with hk' | rfl
      · exact h.keyClosed s hsmem k hk'
      · rw [← hcid]
        exact List.mem_map_of_mem _ hcmem
    · exact h.keyClosed s' hs'mem k hk

theorem regInv_enroll {st : School} (sid cid : String) (h : RegInv st) :
    RegInv ((st.enrollStudentInCourse sid cid).school) := by
  cases hs : st.students.find? (fun x => x.id == sid) with
  | none =>
    rw [enroll_notfound_unfold st sid cid (Or.inl hs)]
    exact h
  | some s =>
  cases hc0 : st.courses.find? (fun x => x.id == cid) with
  | none =>
    rw [enroll_notfound_unfold st sid cid (Or.inr hc0)]
    exact h
  | some c =>
  by_cases hcap : c.enrolled_students.length < usize c.capacity
  · rw [enroll_success_unfold st sid cid s c hs hc0 hcap]
    obtain ⟨L1, L2, hsdec, hL1⟩ := find?_some_decomp hs
    obtain ⟨M1, M2, hcdec, hM1⟩ := find?_some_decomp hc0
    have hsid : s.id = sid := by simpa using List.find?_some hs
    have hcid : c.id = cid := by simpa using List.find?_some hc0
    refine regInv_enroll_core h hsdec hcdec hL1 hM1 hsid hcid _ ?_ ?_
    · show updateFirst (fun x => x.id == sid)
        (fun _ => (s.enroll cid).1) st.students = _
      rw [hsdec]
      exact updateFirst_decomp _ s L2 hL1 (by simpa using hsid)
    · show updateFirst (fun x => x.id == cid)
        (fun _ => { c with enrolled_students := insertSet sid c.enrolled_students })
        st.courses = _
      rw [hcdec]
      exact updateFirst_decomp _ c M2 hM1 (by simpa using hcid)
  · rw [enroll_full_unfold st sid cid s c hs hc0 hcap]
    exact h

theorem regInv_addStudent {st : School} {i n e : String} {a : Address}
    {g : GradeLevel} (h : RegInv st) (hi : i ∉ studentIds st) :
    RegInv (st.addStudent (Student.new i n e a g)) := by
  refine ⟨?_, h.cNodup, ?_, ?_, ?_⟩
  · have hn := h.sNodup
    simp only [studentIds, School.addStudent, List.map_append, List.map_cons,
      List.map_nil]
    rw [List.nodup_append]
    refine ⟨hn, by simp, ?_⟩
    intro x hx hx2
    rcases List.mem_singleton.mp hx2 with rfl
    exact hi hx
  · intro s' hs' c' hc'
    rcases List.mem_append.mp hs' with hs' | hs'
    · exact h.mc s' hs' c' hc'
    · obtain rfl : s' = Student.new i n e a g := List.mem_singleton.mp hs'
      refine iff_of_false ?_ ?_
      · intro hk
        simp [Student.new, List.lookup] at hk
      · intro hmem
        exact hi (h.enrClosed c' hc' _ hmem)
  · intro c' hc' x hx
    have hx' := h.enrClosed c' hc' x hx
    simp only [studentIds, School.addStudent, List.map_append]
    exact List.mem_append_left _ hx'
  · intro s' hs' k hk
    rcases List.mem_append.mp hs' with hs' | hs'
    · exact h.keyClosed s' hs' k hk
    · obtain rfl : s' = Student.new i n e a g := List.mem_singleton.mp hs'
      simp [Student.new, List.lookup] at hk

theorem regInv_addCourse {st : School} {i n : String} {cr cap : Int}
    (h : RegInv st) (hi : i ∉ courseIds st) :
    RegInv (st.addCourse (Course.new i n cr cap)) := by
  refine ⟨h.sNodup, ?_, ?_, ?_, ?_⟩
  · have hn := h.cNodup
    simp only [courseIds, School.addCourse, List.map_append, List.map_cons,
      List.map_nil]
    rw [List.nodup_append]
    refine ⟨hn, by simp, ?_⟩
    intro x hx hx2
    rcases List.mem_singleton.mp hx2 with rfl
    exact hi hx
  · intro s' hs' c' hc'
    rcases List.mem_append.mp hc' with hc' | hc'
    · exact h.mc s' hs' c' hc'
    · obtain rfl : c' = Course.new i n cr cap := List.mem_singleton.mp hc'
      refine iff_of_false ?_ ?_
      · intro hk
        exact hi (h.keyClosed s' hs' _ hk)
      · intro hmem
        simp [Course.new] at hmem
  · intro c' hc' x hx
    rcases List.mem_append.mp hc' with hc' | hc'
    · exact h.enrClosed c' hc' x hx
    · obtain rfl : c' = Course.new i n cr cap := List.mem_singleton.mp hc'
      simp [Course.new] at hx
  · intro s' hs' k hk
    have hk' := h.keyClosed s' hs' k hk
    simp only [courseIds, School.addCourse, List.map_append]
    exact List.mem_append_left _ hk'

theorem regInv_applyOp {st : School} {op : Op} (h : RegInv st)
    (hf : opFresh st op = true) : RegInv (applyOp st op) := by
  cases op with
  | regStudent i n e a g => exact regInv_addStudent h (of_decide_eq_true hf)
  | regTeacher i n e a d sp =>
    exact ⟨h.sNodup, h.cNodup, h.mc, h.enrClosed, h.keyClosed⟩
  | regCourse i n cr cap => exact regInv_addCourse h (of_decide_eq_true hf)
  | enroll sid cid => exact regInv_enroll sid cid h

theorem regInv_applyOps {st : School} {ops : List Op} (h : RegInv st)
    (hok : regOk st ops = true) : RegInv (applyOps st ops) := by
  induction ops generalizing st with
  | nil => exact h
  | cons op rest ih =>
    rw [regOk, Bool.and_eq_true] at hok
    exact ih (regInv_applyOp h hok.1) hok.2

theorem regInv_new (name : String) : RegInv (School.new name) := by
  refine ⟨by simp [studentIds, School.new], by simp [courseIds, School.new],
          ?_, ?_, ?_⟩
  · intro s hs
    simp [School.new] at hs
  · intro c hc
    simp [School.new] at hc
  · intro s hs
    simp [School.new] at hs

/-- Operation sequence registering two students with the same id S001 and
then enrolling that id. -/
def exOpsDup : List Op :=
  [Op.regStudent ("S001") ("Alice") ("a@x.edu") exAddr GradeLevel.FRESHMAN,
   Op.regStudent ("S001") ("Bob") ("b@x.edu") exAddr GradeLevel.JUNIOR,
   Op.regCourse ("CS101") ("Programming Paradigms") 4 30,
   Op.enroll ("S001") ("CS101")]

/-- Claim C1 counterexample: when two registered students share the id S001,
enroll updates only the first of them, so the second student's id sits in
the course's enrolled set while the course is absent from that student's
enrollment map — mutual consistency fails after a legal operation
sequence. -/
theorem claim_C1_counterexample :
    ¬ MutualConsistent (applyOps (School.new ("U")) exOpsDup) := by
  decide

/-- Claim C1 (amended): after any sequence of registry operations in which
every registration uses an id that is fresh within its kind, every
student S and course C satisfy mutual consistency: C's id is a key of
S's enrollment map exactly when S's id is in C's enrolled set. -/
theorem claim_C1_amended (name : String) (ops : List Op)
    (hok : regOk (School.new name) ops = true) :
    MutualConsistent (applyOps (School.new name) ops) :=
  (regInv_applyOps (regInv_new name) hok).mc

/-- Witness for C1 (amended) on the happy-enrollment operation sequence. -/
theorem claim_C1_amended_witness :
    MutualConsistent (applyOps (School.new ("U"))
      [Op.regStudent ("S001") ("Alice") ("a@x.edu") exAddr GradeLevel.FRESHMAN,
       Op.regCourse ("CS101") ("Programming Paradigms") 4 30,
       Op.enroll ("S001") ("CS101")]) :=
  claim_C1_amended ("U") _ (by decide)

end College
